import Mathlib

/-!
Verification of the attendance tracker (`attendance_app.py`).

The two sqlite tables are modelled as Lean lists; the handful of SQL
statements the app issues become list operations:

* `SELECT ... WHERE roll_no=? / id=?`  →  `List.find?`
* `UPDATE ... WHERE id=? / roll_no=?`  →  `List.map` with a conditional
  overwrite of the named columns
* `INSERT INTO records ...`            →  append, with `AUTOINCREMENT`
  modelled by a `next_id` counter

Python integers are unbounded, so all counts are `Int`.  A Python crash
(e.g. subscripting `None` when a `SELECT` returned no row) aborts the
process before `conn.commit()`, so sqlite rolls the open transaction
back and no state survives; such a run is modelled as `Option.none`.
-/

/-- A row of the `students` table: `(roll_no, total_classes, attended_classes)`. -/
structure Student where
  roll_no : String
  total_classes : Int
  attended_classes : Int
deriving DecidableEq, Repr

/-- A row of the `records` table:
`(id, roll_no, date, total_classes, attended_classes)`. -/
structure DailyRecord where
  id : Nat
  roll_no : String
  date : String
  total_classes : Int
  attended_classes : Int
deriving DecidableEq, Repr

/-- The database state: both tables plus the `AUTOINCREMENT` counter of
the `records` table. -/
structure DB where
  students : List Student
  records : List DailyRecord
  next_id : Nat
deriving DecidableEq, Repr

/-- `SELECT * FROM students WHERE roll_no=?` (first matching row). -/
def get_student (db : DB) (roll_no : String) : Option Student :=
  db.students.find? (fun s => s.roll_no == roll_no)

/-- `SELECT * FROM records WHERE id=?` (first matching row). -/
def get_record_by_id (db : DB) (record_id : Nat) : Option DailyRecord :=
  db.records.find? (fun r => r.id == record_id)

/-- `SELECT * FROM records WHERE roll_no=? AND date=?`; the source's
`get_today_record(roll_no)` with `date.today()` made an explicit argument. -/
def get_today_record (db : DB) (roll_no today : String) : Option DailyRecord :=
  db.records.find? (fun r => r.roll_no == roll_no && r.date == today)

/-- Effect of `UPDATE records ... WHERE id=?` on one row. -/
def recOverwrite (record_id : Nat) (nt na : Int) (r : DailyRecord) : DailyRecord :=
  if r.id == record_id then
    { r with total_classes := nt, attended_classes := na }
  else r

/-- `UPDATE records SET total_classes=?, attended_classes=? WHERE id=?`. -/
def sqlUpdateRecords (recs : List DailyRecord) (record_id : Nat) (nt na : Int) :
    List DailyRecord :=
  recs.map (recOverwrite record_id nt na)

/-- Effect of `UPDATE students ... WHERE roll_no=?` on one row. -/
def stuOverwrite (roll_no : String) (t a : Int) (s : Student) : Student :=
  if s.roll_no == roll_no then
    { s with total_classes := t, attended_classes := a }
  else s

/-- `UPDATE students SET total_classes=?, attended_classes=? WHERE roll_no=?`. -/
def sqlUpdateStudents (sts : List Student) (roll_no : String) (t a : Int) :
    List Student :=
  sts.map (stuOverwrite roll_no t a)

/-- `update_record(record_id, roll_no, new_total, new_attended)`.

Returns `some (False, unchanged db)` when the record id is absent.  When
the record exists but `get_student(roll_no)` returns `None`, the Python
line `total, attended = student[1], student[2]` raises `TypeError`
before any `commit`, so the run is modelled as `none`. -/
def update_record (db : DB) (record_id : Nat) (roll_no : String)
    (new_total new_attended : Int) : Option (Bool × DB) :=
  match get_record_by_id db record_id with
  | none => some (false, db)
  | some record =>
    let db1 : DB :=
      { db with records := sqlUpdateRecords db.records record_id new_total new_attended }
    match get_student db1 roll_no with
    | none => none
    | some student =>
      let total := student.total_classes - record.total_classes + new_total
      let attended := student.attended_classes - record.attended_classes + new_attended
      some (true, { db1 with students := sqlUpdateStudents db1.students roll_no total attended })

/-- `add_or_update_today(roll_no, today_total, today_attended)`, with
`str(date.today())` made the explicit `today` argument. -/
def add_or_update_today (db : DB) (today roll_no : String)
    (today_total today_attended : Int) : Option (Bool × DB) :=
  match get_today_record db roll_no today with
  | some existing => update_record db existing.id roll_no today_total today_attended
  | none =>
    let db1 : DB :=
      { db with
        records := db.records ++
          [{ id := db.next_id, roll_no := roll_no, date := today,
             total_classes := today_total, attended_classes := today_attended }],
        next_id := db.next_id + 1 }
    match get_student db1 roll_no with
    | none => none
    | some student =>
      let total := student.total_classes + today_total
      let attended := student.attended_classes + today_attended
      some (true, { db1 with students := sqlUpdateStudents db1.students roll_no total attended })

/-- Outcome shown by a UI button handler. -/
inductive UIResult where
  | saved
  | invalidAttendance
deriving DecidableEq, Repr

/-- The "Save Today's Attendance" button handler (lines 141–146): checks
`today_attended <= today_total` before calling `add_or_update_today`,
otherwise shows the error and touches nothing. -/
def save_today_button (db : DB) (today roll_no : String)
    (today_total today_attended : Int) : Option (UIResult × DB) :=
  if today_attended ≤ today_total then
    match add_or_update_today db today roll_no today_total today_attended with
    | none => none
    | some (_, db1) => some (UIResult.saved, db1)
  else
    some (UIResult.invalidAttendance, db)

/-- The "Save Changes" button handler for editing a past record
(lines 194–199): same bound check before `update_record`. -/
def save_changes_button (db : DB) (record_id : Nat) (roll_no : String)
    (new_total new_attended : Int) : Option (UIResult × DB) :=
  if new_attended ≤ new_total then
    match update_record db record_id roll_no new_total new_attended with
    | none => none
    | some (_, db1) => some (UIResult.saved, db1)
  else
    some (UIResult.invalidAttendance, db)

/-- The stats section rendered after saving (lines 148–176). -/
inductive StatsView where
  | noData
  | safe (percent : ℚ)
  | shortage (percent : ℚ) (needed : Int)
deriving DecidableEq, Repr

/-- The shortfall count of lines 172–173:
`needed = int(((75*total) - (100*attended)) / 25) + 1`.

`75*t - 100*a = 25*(3*t - 4*a)` is always a multiple of 25, so the
Python float division is exact and `int` truncation agrees with integer
division whenever the guard `percent < 75` (hence `3*t - 4*a > 0`) holds. -/
def needed_classes (total_classes attended_classes : Int) : Int :=
  (75 * total_classes - 100 * attended_classes) / 25 + 1

/-- The stats rendering of lines 152–176: percentage and verdict only
under the guard `total_classes > 0`, otherwise "No classes recorded yet." -/
def render_stats (total_classes attended_classes : Int) : StatsView :=
  if total_classes > 0 then
    let percent : ℚ := ((attended_classes : ℚ) / (total_classes : ℚ)) * 100
    if percent ≥ 75 then StatsView.safe percent
    else StatsView.shortage percent (needed_classes total_classes attended_classes)
  else
    StatsView.noData

/-! ### Specification-side definitions

The aggregate invariant the spec states for the two tables, and the
well-formedness facts sqlite guarantees (primary keys, autoincrement). -/

/-- Sum of a column (`f`) over a student's records:
`Σ f(r) for r in records where r.roll_no = roll_no`. -/
def sumBy (recs : List DailyRecord) (roll_no : String) (f : DailyRecord → Int) : Int :=
  ((recs.filter (fun r => r.roll_no == roll_no)).map f).sum

/-- One student row satisfies the aggregate invariant: its totals equal
the column sums over its records. -/
def studentRowOK (db : DB) (s : Student) : Prop :=
  s.total_classes = sumBy db.records s.roll_no (fun r => r.total_classes) ∧
  s.attended_classes = sumBy db.records s.roll_no (fun r => r.attended_classes)

/-- The spec's aggregate invariant: every student row's totals are the
sums over that student's records. -/
def aggregateInvariant (db : DB) : Prop :=
  ∀ s ∈ db.students, studentRowOK db s

/-- The aggregate invariant restricted to the student(s) with a given roll
number. -/
def studentAggOK (db : DB) (roll_no : String) : Prop :=
  ∀ s ∈ db.students, s.roll_no = roll_no → studentRowOK db s

/-- Database well-formedness guaranteed by the sqlite schema:
`roll_no` is the `students` primary key, `id` the `records` primary key,
and `AUTOINCREMENT` keeps every existing id below the counter. -/
def dbWF (db : DB) : Prop :=
  db.students.Pairwise (fun a b => a.roll_no ≠ b.roll_no) ∧
  db.records.Pairwise (fun a b => a.id ≠ b.id) ∧
  ∀ r ∈ db.records, r.id < db.next_id

/-- One engine call issued by the UI: either a "today" submission or an
edit of an existing record by id. -/
inductive Op where
  | submitToday (today roll_no : String) (total attended : Int)
  | editRecord (record_id : Nat) (roll_no : String) (total attended : Int)
deriving DecidableEq, Repr

/-- Run one engine call on the database. -/
def applyOp (db : DB) : Op → Option (Bool × DB)
  | Op.submitToday today roll_no t a => add_or_update_today db today roll_no t a
  | Op.editRecord record_id roll_no t a => update_record db record_id roll_no t a

/-- The claim's side condition on an `editRecord` call: the `roll_no`
argument names the owning student of the edited record. -/
def ownershipOK (db : DB) : Op → Prop
  | Op.submitToday _ _ _ _ => True
  | Op.editRecord record_id roll_no _ _ =>
      ∀ r ∈ db.records, r.id = record_id → r.roll_no = roll_no

/-- A completed (crash-free) run of a sequence of engine calls in which
every call satisfies the ownership side condition at its call state. -/
inductive RunOwned : DB → List Op → DB → Prop where
  | nil (db : DB) : RunOwned db [] db
  | cons (db db1 db2 : DB) (op : Op) (ops : List Op) (b : Bool) :
      ownershipOK db op → applyOp db op = some (b, db1) → RunOwned db1 ops db2 →
      RunOwned db (op :: ops) db2

/-! ### List-level lemmas about the SQL primitives -/

theorem find?_map_pres {α : Type} (p : α → Bool) (f : α → α) (l : List α)
    (h : ∀ x, p (f x) = p x) :
    (l.map f).find? p = (l.find? p).map f := by
  rw [List.find?_map]
  have hpf : p ∘ f = p := funext h
  rw [hpf]

theorem recOverwrite_id (record_id : Nat) (nt na : Int) (r : DailyRecord) :
    (recOverwrite record_id nt na r).id = r.id := by
  unfold recOverwrite; split <;> rfl

theorem recOverwrite_roll_no (record_id : Nat) (nt na : Int) (r : DailyRecord) :
    (recOverwrite record_id nt na r).roll_no = r.roll_no := by
  unfold recOverwrite; split <;> rfl

theorem recOverwrite_date (record_id : Nat) (nt na : Int) (r : DailyRecord) :
    (recOverwrite record_id nt na r).date = r.date := by
  unfold recOverwrite; split <;> rfl

theorem recOverwrite_of_eq (record_id : Nat) (nt na : Int) (r : DailyRecord)
    (h : r.id = record_id) :
    recOverwrite record_id nt na r = { r with total_classes := nt, attended_classes := na } := by
  unfold recOverwrite
  simp [h]

theorem recOverwrite_of_ne (record_id : Nat) (nt na : Int) (r : DailyRecord)
    (h : r.id ≠ record_id) : recOverwrite record_id nt na r = r := by
  unfold recOverwrite
  simp [h]

theorem recOverwrite_idem (record_id : Nat) (nt na : Int) (r : DailyRecord) :
    recOverwrite record_id nt na (recOverwrite record_id nt na r) =
      recOverwrite record_id nt na r := by
  by_cases h : r.id = record_id
  · rw [recOverwrite_of_eq _ _ _ _ h]
    exact recOverwrite_of_eq _ _ _ _ h
  · rw [recOverwrite_of_ne _ _ _ _ h, recOverwrite_of_ne _ _ _ _ h]

theorem stuOverwrite_roll_no (roll_no : String) (t a : Int) (s : Student) :
    (stuOverwrite roll_no t a s).roll_no = s.roll_no := by
  unfold stuOverwrite; split <;> rfl

theorem stuOverwrite_of_eq (roll_no : String) (t a : Int) (s : Student)
    (h : s.roll_no = roll_no) :
    stuOverwrite roll_no t a s = { s with total_classes := t, attended_classes := a } := by
  unfold stuOverwrite
  simp [h]

theorem stuOverwrite_of_ne (roll_no : String) (t a : Int) (s : Student)
    (h : s.roll_no ≠ roll_no) : stuOverwrite roll_no t a s = s := by
  unfold stuOverwrite
  simp [h]

theorem stuOverwrite_idem (roll_no : String) (t a : Int) (s : Student) :
    stuOverwrite roll_no t a (stuOverwrite roll_no t a s) = stuOverwrite roll_no t a s := by
  by_cases h : s.roll_no = roll_no
  · rw [stuOverwrite_of_eq _ _ _ _ h]
    exact stuOverwrite_of_eq _ _ _ _ h
  · rw [stuOverwrite_of_ne _ _ _ _ h, stuOverwrite_of_ne _ _ _ _ h]

theorem sqlUpdateRecords_idem (recs : List DailyRecord) (record_id : Nat) (nt na : Int) :
    sqlUpdateRecords (sqlUpdateRecords recs record_id nt na) record_id nt na =
      sqlUpdateRecords recs record_id nt na := by
  unfold sqlUpdateRecords
  rw [List.map_map]
  exact List.map_congr_left (fun r _ => recOverwrite_idem record_id nt na r)

theorem sqlUpdateStudents_idem (sts : List Student) (roll_no : String) (t a : Int) :
    sqlUpdateStudents (sqlUpdateStudents sts roll_no t a) roll_no t a =
      sqlUpdateStudents sts roll_no t a := by
  unfold sqlUpdateStudents
  rw [List.map_map]
  exact List.map_congr_left (fun s _ => stuOverwrite_idem roll_no t a s)

theorem sqlUpdateRecords_no_match (recs : List DailyRecord) (record_id : Nat) (nt na : Int)
    (h : ∀ r ∈ recs, r.id ≠ record_id) :
    sqlUpdateRecords recs record_id nt na = recs := by
  unfold sqlUpdateRecords
  calc recs.map (recOverwrite record_id nt na) = recs.map id :=
        List.map_congr_left (fun r hr => recOverwrite_of_ne _ _ _ _ (h r hr))
    _ = recs := List.map_id recs

theorem find?_id_sqlUpdateRecords (recs : List DailyRecord) (record_id j : Nat) (nt na : Int) :
    (sqlUpdateRecords recs record_id nt na).find? (fun r => r.id == j) =
      (recs.find? (fun r => r.id == j)).map (recOverwrite record_id nt na) := by
  exact find?_map_pres _ _ _ (fun r => by rw [recOverwrite_id])

theorem find?_today_sqlUpdateRecords (recs : List DailyRecord) (record_id : Nat)
    (nt na : Int) (q d : String) :
    (sqlUpdateRecords recs record_id nt na).find? (fun r => r.roll_no == q && r.date == d) =
      (recs.find? (fun r => r.roll_no == q && r.date == d)).map
        (recOverwrite record_id nt na) := by
  exact find?_map_pres _ _ _ (fun r => by rw [recOverwrite_roll_no, recOverwrite_date])

theorem find?_sqlUpdateStudents (sts : List Student) (roll_no q : String) (t a : Int) :
    (sqlUpdateStudents sts roll_no t a).find? (fun s => s.roll_no == q) =
      (sts.find? (fun s => s.roll_no == q)).map (stuOverwrite roll_no t a) := by
  exact find?_map_pres _ _ _ (fun s => by rw [stuOverwrite_roll_no])

theorem pairwise_key_eq {α κ : Type} (key : α → κ) :
    ∀ l : List α, l.Pairwise (fun a b => key a ≠ key b) →
      ∀ a b, a ∈ l → b ∈ l → key a = key b → a = b := by
  intro l
  induction l with
  | nil => intro _ a b ha _ _; exact absurd ha (List.not_mem_nil a)
  | cons x xs ih =>
    intro hpw a b ha hb hk
    rcases List.pairwise_cons.mp hpw with ⟨hx, hxs⟩
    rcases List.mem_cons.mp ha with rfl | ha' <;>
      rcases List.mem_cons.mp hb with rfl | hb'
    · rfl
    · exact absurd hk (hx b hb')
    · exact absurd hk.symm (hx a ha')
    · exact ih hxs a b ha' hb' hk

theorem sumBy_cons (x : DailyRecord) (l : List DailyRecord) (q : String)
    (f : DailyRecord → Int) :
    sumBy (x :: l) q f = (if x.roll_no = q then f x else 0) + sumBy l q f := by
  by_cases h : x.roll_no = q
  · simp [sumBy, List.filter_cons, h]
  · simp [sumBy, List.filter_cons, h]

theorem sumBy_append (l₁ l₂ : List DailyRecord) (q : String) (f : DailyRecord → Int) :
    sumBy (l₁ ++ l₂) q f = sumBy l₁ q f + sumBy l₂ q f := by
  simp [sumBy, List.filter_append]

theorem sumBy_sqlUpdateRecords (recs : List DailyRecord) (record_id : Nat) (nt na : Int)
    (q : String) (f : DailyRecord → Int) (v : Int) (record : DailyRecord)
    (hv : ∀ r : DailyRecord, f { r with total_classes := nt, attended_classes := na } = v)
    (hfind : recs.find? (fun r => r.id == record_id) = some record)
    (hpw : recs.Pairwise (fun a b => a.id ≠ b.id)) :
    sumBy (sqlUpdateRecords recs record_id nt na) q f =
      sumBy recs q f + (if record.roll_no = q then v - f record else 0) := by
  induction recs with
  | nil => simp at hfind
  | cons x xs ih =>
    rcases List.pairwise_cons.mp hpw with ⟨hx, hxs⟩
    by_cases hid : x.id = record_id
    · have hfx : x = record := by
        rw [List.find?_cons_of_pos xs (by simp [hid])] at hfind
        exact Option.some.inj hfind
      have htail : sqlUpdateRecords xs record_id nt na = xs :=
        sqlUpdateRecords_no_match xs record_id nt na
          (fun r hr => by rw [← hid]; exact (hx r hr).symm)
      have hhead : recOverwrite record_id nt na x =
          { x with total_classes := nt, attended_classes := na } :=
        recOverwrite_of_eq _ _ _ _ hid
      unfold sqlUpdateRecords
      rw [List.map_cons]
      show sumBy (recOverwrite record_id nt na x :: xs.map (recOverwrite record_id nt na)) q f = _
      have : xs.map (recOverwrite record_id nt na) = xs := htail
      rw [this, hhead, sumBy_cons, sumBy_cons, ← hfx]
      have hroll : ({ x with total_classes := nt, attended_classes := na } :
          DailyRecord).roll_no = x.roll_no := rfl
      rw [hroll, hv x]
      by_cases hq : x.roll_no = q
      · rw [if_pos hq, if_pos hq, if_pos hq]; ring
      · rw [if_neg hq, if_neg hq, if_neg hq]; ring
    · have hfind' : xs.find? (fun r => r.id == record_id) = some record := by
        rw [List.find?_cons_of_neg xs (by simp [hid])] at hfind
        exact hfind
      have hxr : recOverwrite record_id nt na x = x := recOverwrite_of_ne _ _ _ _ hid
      unfold sqlUpdateRecords
      rw [List.map_cons, hxr]
      show sumBy (x :: xs.map (recOverwrite record_id nt na)) q f = _
      rw [sumBy_cons, sumBy_cons]
      unfold sqlUpdateRecords at ih
      rw [ih hfind' hxs]
      ring

theorem sumBy_singleton (x : DailyRecord) (q : String) (f : DailyRecord → Int) :
    sumBy [x] q f = if x.roll_no = q then f x else 0 := by
  rw [sumBy_cons]
  simp [sumBy]

/-! ### Reading off the result of a lookup -/

theorem get_student_mem_roll (db : DB) (roll_no : String) (st : Student)
    (h : get_student db roll_no = some st) : st ∈ db.students ∧ st.roll_no = roll_no := by
  refine ⟨List.mem_of_find?_eq_some h, ?_⟩
  have := List.find?_some h
  simpa using this

theorem get_record_mem_id (db : DB) (record_id : Nat) (record : DailyRecord)
    (h : get_record_by_id db record_id = some record) :
    record ∈ db.records ∧ record.id = record_id := by
  refine ⟨List.mem_of_find?_eq_some h, ?_⟩
  have := List.find?_some h
  simpa using this

theorem get_today_mem (db : DB) (roll_no today : String) (record : DailyRecord)
    (h : get_today_record db roll_no today = some record) :
    record ∈ db.records ∧ record.roll_no = roll_no ∧ record.date = today := by
  refine ⟨List.mem_of_find?_eq_some h, ?_⟩
  have := List.find?_some h
  simp at this
  exact this

theorem student_mem_eq_found (db : DB) (roll_no : String) (st s : Student)
    (hpw : db.students.Pairwise (fun a b => a.roll_no ≠ b.roll_no))
    (hfind : get_student db roll_no = some st)
    (hs : s ∈ db.students) (hroll : s.roll_no = roll_no) : s = st := by
  obtain ⟨hmem, hkey⟩ := get_student_mem_roll db roll_no st hfind
  exact pairwise_key_eq Student.roll_no db.students hpw s st hs hmem (hroll.trans hkey.symm)

theorem record_mem_eq_found (db : DB) (record_id : Nat) (record r : DailyRecord)
    (hpw : db.records.Pairwise (fun a b => a.id ≠ b.id))
    (hfind : get_record_by_id db record_id = some record)
    (hr : r ∈ db.records) (hid : r.id = record_id) : r = record := by
  obtain ⟨hmem, hkey⟩ := get_record_mem_id db record_id record hfind
  exact pairwise_key_eq DailyRecord.id db.records hpw r record hr hmem (hid.trans hkey.symm)

/-! ### Characterizing the engine calls -/

theorem update_record_none (db : DB) (record_id : Nat) (roll_no : String) (nt na : Int)
    (hrec : get_record_by_id db record_id = none) :
    update_record db record_id roll_no nt na = some (false, db) := by
  unfold update_record
  rw [hrec]

theorem update_record_crash (db : DB) (record_id : Nat) (roll_no : String) (nt na : Int)
    (record : DailyRecord)
    (hrec : get_record_by_id db record_id = some record)
    (hst : get_student db roll_no = none) :
    update_record db record_id roll_no nt na = none := by
  have h1 : get_student
      { db with records := sqlUpdateRecords db.records record_id nt na } roll_no = none := hst
  simp only [update_record, hrec, h1]

theorem update_record_some (db : DB) (record_id : Nat) (roll_no : String) (nt na : Int)
    (record : DailyRecord) (st : Student)
    (hrec : get_record_by_id db record_id = some record)
    (hst : get_student db roll_no = some st) :
    update_record db record_id roll_no nt na =
      some (true,
        { students := sqlUpdateStudents db.students roll_no
            (st.total_classes - record.total_classes + nt)
            (st.attended_classes - record.attended_classes + na),
          records := sqlUpdateRecords db.records record_id nt na,
          next_id := db.next_id }) := by
  have h1 : get_student
      { db with records := sqlUpdateRecords db.records record_id nt na } roll_no = some st := hst
  simp only [update_record, hrec, h1]

theorem add_today_existing (db : DB) (today roll_no : String) (tt ta : Int)
    (existing : DailyRecord)
    (hex : get_today_record db roll_no today = some existing) :
    add_or_update_today db today roll_no tt ta =
      update_record db existing.id roll_no tt ta := by
  unfold add_or_update_today
  rw [hex]

theorem add_today_insert (db : DB) (today roll_no : String) (tt ta : Int) (st : Student)
    (hex : get_today_record db roll_no today = none)
    (hst : get_student db roll_no = some st) :
    add_or_update_today db today roll_no tt ta =
      some (true,
        { students := sqlUpdateStudents db.students roll_no
            (st.total_classes + tt) (st.attended_classes + ta),
          records := db.records ++
            [{ id := db.next_id, roll_no := roll_no, date := today,
               total_classes := tt, attended_classes := ta }],
          next_id := db.next_id + 1 }) := by
  have h1 : get_student
      { db with
        records := db.records ++
          [{ id := db.next_id, roll_no := roll_no, date := today,
             total_classes := tt, attended_classes := ta }],
        next_id := db.next_id + 1 } roll_no = some st := hst
  simp only [add_or_update_today, hex, h1]

theorem add_today_insert_crash (db : DB) (today roll_no : String) (tt ta : Int)
    (hex : get_today_record db roll_no today = none)
    (hst : get_student db roll_no = none) :
    add_or_update_today db today roll_no tt ta = none := by
  have h1 : get_student
      { db with
        records := db.records ++
          [{ id := db.next_id, roll_no := roll_no, date := today,
             total_classes := tt, attended_classes := ta }],
        next_id := db.next_id + 1 } roll_no = none := hst
  simp only [add_or_update_today, hex, h1]

/-! ### Preservation of well-formedness and of the aggregate invariant -/

theorem dbWF_sqlUpdate (db : DB) (record_id : Nat) (roll_no : String) (nt na t a : Int)
    (hwf : dbWF db) :
    dbWF { students := sqlUpdateStudents db.students roll_no t a,
           records := sqlUpdateRecords db.records record_id nt na,
           next_id := db.next_id } := by
  obtain ⟨hs, hr, hb⟩ := hwf
  refine ⟨?_, ?_, ?_⟩
  · show (sqlUpdateStudents db.students roll_no t a).Pairwise _
    unfold sqlUpdateStudents
    rw [List.pairwise_map]
    exact hs.imp (fun h => by rw [stuOverwrite_roll_no, stuOverwrite_roll_no]; exact h)
  · show (sqlUpdateRecords db.records record_id nt na).Pairwise _
    unfold sqlUpdateRecords
    rw [List.pairwise_map]
    exact hr.imp (fun h => by rw [recOverwrite_id, recOverwrite_id]; exact h)
  · intro r hrmem
    have hrmem' : r ∈ sqlUpdateRecords db.records record_id nt na := hrmem
    unfold sqlUpdateRecords at hrmem'
    rcases List.mem_map.mp hrmem' with ⟨r0, hr0, rfl⟩
    show (recOverwrite record_id nt na r0).id < db.next_id
    rw [recOverwrite_id]
    exact hb r0 hr0

theorem dbWF_insert (db : DB) (today roll_no : String) (tt ta t a : Int)
    (hwf : dbWF db) :
    dbWF { students := sqlUpdateStudents db.students roll_no t a,
           records := db.records ++
             [{ id := db.next_id, roll_no := roll_no, date := today,
                total_classes := tt, attended_classes := ta }],
           next_id := db.next_id + 1 } := by
  obtain ⟨hs, hr, hb⟩ := hwf
  refine ⟨?_, ?_, ?_⟩
  · show (sqlUpdateStudents db.students roll_no t a).Pairwise _
    unfold sqlUpdateStudents
    rw [List.pairwise_map]
    exact hs.imp (fun h => by rw [stuOverwrite_roll_no, stuOverwrite_roll_no]; exact h)
  · show (db.records ++ [_]).Pairwise _
    rw [List.pairwise_append]
    refine ⟨hr, List.pairwise_singleton _ _, ?_⟩
    intro x hx y hy
    rcases List.mem_singleton.mp hy with rfl
    have := hb x hx
    show x.id ≠ db.next_id
    omega
  · intro r hrmem
    have hrmem' : r ∈ db.records ++
        [({ id := db.next_id, roll_no := roll_no, date := today,
            total_classes := tt, attended_classes := ta } : DailyRecord)] := hrmem
    rcases List.mem_append.mp hrmem' with h | h
    · have := hb r h
      show r.id < db.next_id + 1
      omega
    · rcases List.mem_singleton.mp h with rfl
      show db.next_id < db.next_id + 1
      omega

theorem aggInv_update (db : DB) (record_id : Nat) (roll_no : String) (nt na : Int)
    (record : DailyRecord) (st : Student)
    (hwf : dbWF db) (hinv : aggregateInvariant db)
    (hrec : get_record_by_id db record_id = some record)
    (hroll : record.roll_no = roll_no)
    (hst : get_student db roll_no = some st) :
    aggregateInvariant
      { students := sqlUpdateStudents db.students roll_no
          (st.total_classes - record.total_classes + nt)
          (st.attended_classes - record.attended_classes + na),
        records := sqlUpdateRecords db.records record_id nt na,
        next_id := db.next_id } := by
  obtain ⟨hspw, hrpw, _⟩ := hwf
  obtain ⟨hstmem, hstroll⟩ := get_student_mem_roll db roll_no st hst
  intro s' hs'
  have hs'' : s' ∈ sqlUpdateStudents db.students roll_no
      (st.total_classes - record.total_classes + nt)
      (st.attended_classes - record.attended_classes + na) := hs'
  unfold sqlUpdateStudents at hs''
  rcases List.mem_map.mp hs'' with ⟨s0, hs0, rfl⟩
  have hsumT : ∀ q, sumBy (sqlUpdateRecords db.records record_id nt na) q
        (fun r => r.total_classes) =
      sumBy db.records q (fun r => r.total_classes) +
        (if record.roll_no = q then nt - record.total_classes else 0) :=
    fun q => sumBy_sqlUpdateRecords db.records record_id nt na q _ nt record
      (fun r => rfl) hrec hrpw
  have hsumA : ∀ q, sumBy (sqlUpdateRecords db.records record_id nt na) q
        (fun r => r.attended_classes) =
      sumBy db.records q (fun r => r.attended_classes) +
        (if record.roll_no = q then na - record.attended_classes else 0) :=
    fun q => sumBy_sqlUpdateRecords db.records record_id nt na q _ na record
      (fun r => rfl) hrec hrpw
  obtain ⟨h0T, h0A⟩ := hinv s0 hs0
  by_cases hq : s0.roll_no = roll_no
  · have hs0st : s0 = st := student_mem_eq_found db roll_no st s0 hspw hst hs0 hq
    subst hs0st
    rw [stuOverwrite_of_eq _ _ _ _ hq]
    have hcond : record.roll_no = s0.roll_no := by rw [hroll, hq]
    constructor
    · show s0.total_classes - record.total_classes + nt = sumBy _ s0.roll_no _
      rw [hsumT s0.roll_no, if_pos hcond, ← h0T]
      ring
    · show s0.attended_classes - record.attended_classes + na = sumBy _ s0.roll_no _
      rw [hsumA s0.roll_no, if_pos hcond, ← h0A]
      ring
  · rw [stuOverwrite_of_ne _ _ _ _ hq]
    have hcond : ¬ record.roll_no = s0.roll_no := by
      rw [hroll]; exact fun h => hq h.symm
    constructor
    · show s0.total_classes = sumBy _ s0.roll_no _
      rw [hsumT s0.roll_no, if_neg hcond, h0T]
      ring
    · show s0.attended_classes = sumBy _ s0.roll_no _
      rw [hsumA s0.roll_no, if_neg hcond, h0A]
      ring

theorem aggInv_insert (db : DB) (today roll_no : String) (tt ta : Int) (st : Student)
    (hwf : dbWF db) (hinv : aggregateInvariant db)
    (hst : get_student db roll_no = some st) :
    aggregateInvariant
      { students := sqlUpdateStudents db.students roll_no
          (st.total_classes + tt) (st.attended_classes + ta),
        records := db.records ++
          [{ id := db.next_id, roll_no := roll_no, date := today,
             total_classes := tt, attended_classes := ta }],
        next_id := db.next_id + 1 } := by
  obtain ⟨hspw, _, _⟩ := hwf
  obtain ⟨hstmem, hstroll⟩ := get_student_mem_roll db roll_no st hst
  intro s' hs'
  have hs'' : s' ∈ sqlUpdateStudents db.students roll_no
      (st.total_classes + tt) (st.attended_classes + ta) := hs'
  unfold sqlUpdateStudents at hs''
  rcases List.mem_map.mp hs'' with ⟨s0, hs0, rfl⟩
  have hnew : ∀ f : DailyRecord → Int, ∀ q,
      sumBy (db.records ++
        [{ id := db.next_id, roll_no := roll_no, date := today,
           total_classes := tt, attended_classes := ta }]) q f =
      sumBy db.records q f +
        (if roll_no = q then
          f { id := db.next_id, roll_no := roll_no, date := today,
              total_classes := tt, attended_classes := ta } else 0) := by
    intro f q
    rw [sumBy_append, sumBy_singleton]
  obtain ⟨h0T, h0A⟩ := hinv s0 hs0
  by_cases hq : s0.roll_no = roll_no
  · have hs0st : s0 = st := student_mem_eq_found db roll_no st s0 hspw hst hs0 hq
    subst hs0st
    rw [stuOverwrite_of_eq _ _ _ _ hq]
    constructor
    · show s0.total_classes + tt = sumBy _ s0.roll_no _
      rw [hnew _ s0.roll_no, if_pos hq.symm, ← h0T]
    · show s0.attended_classes + ta = sumBy _ s0.roll_no _
      rw [hnew _ s0.roll_no, if_pos hq.symm, ← h0A]
  · rw [stuOverwrite_of_ne _ _ _ _ hq]
    have hcond : ¬ roll_no = s0.roll_no := fun h => hq h.symm
    constructor
    · show s0.total_classes = sumBy _ s0.roll_no _
      rw [hnew _ s0.roll_no, if_neg hcond, h0T]
      ring
    · show s0.attended_classes = sumBy _ s0.roll_no _
      rw [hnew _ s0.roll_no, if_neg hcond, h0A]
      ring

theorem update_record_preserves (db : DB) (record_id : Nat) (roll_no : String)
    (nt na : Int) (b : Bool) (db' : DB)
    (hwf : dbWF db) (hinv : aggregateInvariant db)
    (hown : ∀ r ∈ db.records, r.id = record_id → r.roll_no = roll_no)
    (hrun : update_record db record_id roll_no nt na = some (b, db')) :
    dbWF db' ∧ aggregateInvariant db' := by
  cases hgr : get_record_by_id db record_id with
  | none =>
    rw [update_record_none db record_id roll_no nt na hgr] at hrun
    injection hrun with h2
    injection h2 with hb hdb
    subst hdb
    exact ⟨hwf, hinv⟩
  | some record =>
    cases hgs : get_student db roll_no with
    | none =>
      rw [update_record_crash db record_id roll_no nt na record hgr hgs] at hrun
      cases hrun
    | some st =>
      rw [update_record_some db record_id roll_no nt na record st hgr hgs] at hrun
      injection hrun with h2
      injection h2 with hb hdb
      subst hdb
      obtain ⟨hrmem, hrid⟩ := get_record_mem_id db record_id record hgr
      have hroll : record.roll_no = roll_no := hown record hrmem hrid
      exact ⟨dbWF_sqlUpdate db record_id roll_no nt na _ _ hwf,
             aggInv_update db record_id roll_no nt na record st hwf hinv hgr hroll hgs⟩

theorem add_today_preserves (db : DB) (today roll_no : String) (tt ta : Int)
    (b : Bool) (db' : DB)
    (hwf : dbWF db) (hinv : aggregateInvariant db)
    (hrun : add_or_update_today db today roll_no tt ta = some (b, db')) :
    dbWF db' ∧ aggregateInvariant db' := by
  cases hex : get_today_record db roll_no today with
  | some existing =>
    rw [add_today_existing db today roll_no tt ta existing hex] at hrun
    obtain ⟨hexmem, hexroll, _⟩ := get_today_mem db roll_no today existing hex
    have hown : ∀ r ∈ db.records, r.id = existing.id → r.roll_no = roll_no := by
      intro r hr hid
      have hr0 : r = existing :=
        pairwise_key_eq DailyRecord.id db.records hwf.2.1 r existing hr hexmem hid
      rw [hr0]
      exact hexroll
    exact update_record_preserves db existing.id roll_no tt ta b db' hwf hinv hown hrun
  | none =>
    cases hgs : get_student db roll_no with
    | none =>
      rw [add_today_insert_crash db today roll_no tt ta hex hgs] at hrun
      cases hrun
    | some st =>
      rw [add_today_insert db today roll_no tt ta st hex hgs] at hrun
      injection hrun with h2
      injection h2 with hb hdb
      subst hdb
      exact ⟨dbWF_insert db today roll_no tt ta _ _ hwf,
             aggInv_insert db today roll_no tt ta st hwf hinv hgs⟩

theorem applyOp_preserves (db : DB) (op : Op) (b : Bool) (db' : DB)
    (hwf : dbWF db) (hinv : aggregateInvariant db)
    (hown : ownershipOK db op)
    (hrun : applyOp db op = some (b, db')) :
    dbWF db' ∧ aggregateInvariant db' := by
  cases op with
  | submitToday today roll_no t a =>
    exact add_today_preserves db today roll_no t a b db' hwf hinv hrun
  | editRecord record_id roll_no t a =>
    exact update_record_preserves db record_id roll_no t a b db' hwf hinv hown hrun

theorem runOwned_preserves (db : DB) (ops : List Op) (db' : DB)
    (hrun : RunOwned db ops db') :
    dbWF db → aggregateInvariant db → dbWF db' ∧ aggregateInvariant db' := by
  induction hrun with
  | nil d => exact fun hwf hinv => ⟨hwf, hinv⟩
  | cons d d1 d2 op ops b ho ha hr ih =>
    intro hwf hinv
    obtain ⟨hwf1, hinv1⟩ := applyOp_preserves d op b d1 hwf hinv ho ha
    exact ih hwf1 hinv1

/-! ### Claim theorems -/

/-- C2, counterexample: at `total = 20`, `attended = 10` the code computes
`needed = 21`, but `n = 20` already satisfies `100*(attended+n) ≥ 75*(total+n)`
(3000 ≥ 3000), so 21 is NOT the least such `n`: the claim as stated is false. -/
theorem claim_C2_counterexample :
    ¬ ((0 ≤ needed_classes 20 10 ∧
          100 * (10 + needed_classes 20 10) ≥ 75 * (20 + needed_classes 20 10)) ∧
        ∀ n : Int, 0 ≤ n → 100 * (10 + n) ≥ 75 * (20 + n) →
          needed_classes 20 10 ≤ n) :=
  fun h => absurd (h.2 20 (by decide) (by decide)) (by decide)

/-- C2, amended: for `total > 0`, `0 ≤ attended ≤ total` and
`100*attended < 75*total`, the shortfall `floor((75*total − 100*attended)/25) + 1`
is the minimum number of additional consecutive fully-attended classes after
which the attendance percentage STRICTLY EXCEEDS 75%: the least `n ≥ 0` with
`100*(attended+n) > 75*(total+n)` (one more than the least `n` that merely
reaches the threshold, as the spec's own "+1 … strictly exceeds" note says). -/
theorem claim_C2_needed_least_strict (total attended : Int)
    (htpos : 0 < total) (ha0 : 0 ≤ attended) (hat : attended ≤ total)
    (hshort : 100 * attended < 75 * total) :
    (0 ≤ needed_classes total attended ∧
      100 * (attended + needed_classes total attended) >
        75 * (total + needed_classes total attended)) ∧
    ∀ n : Int, 0 ≤ n → 100 * (attended + n) > 75 * (total + n) →
      needed_classes total attended ≤ n := by
  have hdiv : needed_classes total attended = 3 * total - 4 * attended + 1 := by
    unfold needed_classes
    have h25 : 75 * total - 100 * attended = 25 * (3 * total - 4 * attended) := by ring
    rw [h25]
    omega
  rw [hdiv]
  refine ⟨⟨by omega, by omega⟩, ?_⟩
  intro n hn0 hn
  omega

/-- Witness for C2 (amended) at the spec's own example `total=20, attended=10`:
the computed shortfall 21 is the least `n` strictly exceeding 75%. -/
theorem claim_C2_needed_least_strict_witness :
    (0 ≤ needed_classes 20 10 ∧
      100 * (10 + needed_classes 20 10) > 75 * (20 + needed_classes 20 10)) ∧
    ∀ n : Int, 0 ≤ n → 100 * (10 + n) > 75 * (20 + n) → needed_classes 20 10 ≤ n :=
  claim_C2_needed_least_strict 20 10 (by decide) (by decide) (by decide) (by decide)

/-- C3: for `attended > total`, both submit-or-edit button handlers fail with
the invalid-attendance error and return the database exactly as it was:
no records row and no students row is touched. -/
theorem claim_C3_invalid_attendance_no_writes (db : DB) (today roll_no : String)
    (record_id : Nat) (total attended : Int) (hgt : total < attended) :
    save_today_button db today roll_no total attended =
      some (UIResult.invalidAttendance, db) ∧
    save_changes_button db record_id roll_no total attended =
      some (UIResult.invalidAttendance, db) := by
  constructor
  · unfold save_today_button
    rw [if_neg (by omega)]
  · unfold save_changes_button
    rw [if_neg (by omega)]

/-- Witness for C3 at the spec's example `submitOrEdit(roll, date, 5, 6)`. -/
theorem claim_C3_invalid_attendance_no_writes_witness :
    save_today_button ⟨[⟨"r", 0, 0⟩], [], 0⟩ "2025-01-01" "r" 5 6 =
      some (UIResult.invalidAttendance, ⟨[⟨"r", 0, 0⟩], [], 0⟩) ∧
    save_changes_button ⟨[⟨"r", 0, 0⟩], [], 0⟩ 0 "r" 5 6 =
      some (UIResult.invalidAttendance, ⟨[⟨"r", 0, 0⟩], [], 0⟩) :=
  claim_C3_invalid_attendance_no_writes ⟨[⟨"r", 0, 0⟩], [], 0⟩ "2025-01-01" "r" 0 5 6
    (by decide)

/-- C4: when no students row exists for the roll number, neither engine
function returns a NotFound result — both crash (modelled `none`, the
uncommitted transaction is rolled back), contrary to the spec's required
`NotFound`.  Left: `add_or_update_today` on an empty students table.
Right: `update_record` on an existing record whose student is missing. -/
theorem claim_C4_missing_student_crashes :
    add_or_update_today ⟨[], [], 0⟩ "2025-01-01" "X" 1 1 = none ∧
    update_record ⟨[], [⟨0, "X", "2025-01-01", 1, 1⟩], 1⟩ 0 "X" 2 2 = none := by
  constructor
  · decide
  · decide

/-- C6: with records `(10,8)` and `(10,9)` and Student totals `(20,17)`,
editing the first record to `(10,5)` yields Student totals `(20,14)`:
the aggregate reflects the historical edit immediately. -/
theorem claim_C6_retroactive_edit :
    (update_record
        ⟨[⟨"r", 20, 17⟩],
         [⟨1, "r", "2025-01-01", 10, 8⟩, ⟨2, "r", "2025-01-02", 10, 9⟩], 3⟩
        1 "r" 10 5).bind
      (fun p => (get_student p.2 "r").map
        (fun s => (s.total_classes, s.attended_classes))) =
      some ((20 : Int), (14 : Int)) := by
  decide

/-- C7: with `total_classes = 0` the stats section renders the no-data
message: no percentage and no shortfall value is computed, and the division
`attended_classes / total_classes` is guarded by `total_classes > 0`. -/
theorem claim_C7_zero_total_no_data (attended : Int) :
    render_stats 0 attended = StatsView.noData := by
  unfold render_stats
  rw [if_neg (by omega)]

/-- C1: starting from a well-formed database satisfying the aggregate
invariant, after any crash-free sequence of `add_or_update_today` and
`update_record` calls in which the `roll_no` argument always names the
edited record's owning student, every student row's `total_classes` equals
the sum of `total_classes` over that student's records rows, and its
`attended_classes` equals the sum of `attended_classes` over those rows. -/
theorem claim_C1_totals_eq_sum_of_records (db db' : DB) (ops : List Op)
    (hwf : dbWF db) (hinv : aggregateInvariant db)
    (hrun : RunOwned db ops db') :
    ∀ s ∈ db'.students,
      s.total_classes = sumBy db'.records s.roll_no (fun r => r.total_classes) ∧
      s.attended_classes = sumBy db'.records s.roll_no (fun r => r.attended_classes) :=
  (runOwned_preserves db ops db' hrun hwf hinv).2

/-- Witness for C1: a fresh student submits `(2,1)` for today and then edits
that record to `(3,1)`; the final totals match the record sums. -/
theorem claim_C1_totals_eq_sum_of_records_witness :
    (⟨"r", 3, 1⟩ : Student).total_classes =
      sumBy (⟨[⟨"r", 3, 1⟩], [⟨0, "r", "2025-01-01", 3, 1⟩], 1⟩ : DB).records
        (⟨"r", 3, 1⟩ : Student).roll_no (fun r => r.total_classes) ∧
    (⟨"r", 3, 1⟩ : Student).attended_classes =
      sumBy (⟨[⟨"r", 3, 1⟩], [⟨0, "r", "2025-01-01", 3, 1⟩], 1⟩ : DB).records
        (⟨"r", 3, 1⟩ : Student).roll_no (fun r => r.attended_classes) :=
  claim_C1_totals_eq_sum_of_records
    ⟨[⟨"r", 0, 0⟩], [], 0⟩
    ⟨[⟨"r", 3, 1⟩], [⟨0, "r", "2025-01-01", 3, 1⟩], 1⟩
    [Op.submitToday "2025-01-01" "r" 2 1, Op.editRecord 0 "r" 3 1]
    (by refine ⟨?_, ?_, ?_⟩
        · exact List.pairwise_singleton _ _
        · exact List.Pairwise.nil
        · intro r hr
          exact absurd hr (List.not_mem_nil r))
    (by intro s hs
        rcases List.mem_singleton.mp hs with rfl
        exact ⟨rfl, rfl⟩)
    (RunOwned.cons _ ⟨[⟨"r", 2, 1⟩], [⟨0, "r", "2025-01-01", 2, 1⟩], 1⟩ _ _ _ true
      trivial (by decide)
      (RunOwned.cons _ ⟨[⟨"r", 3, 1⟩], [⟨0, "r", "2025-01-01", 3, 1⟩], 1⟩ _ _ _ true
        (by show ∀ r ∈ [(⟨0, "r", "2025-01-01", 2, 1⟩ : DailyRecord)],
              r.id = 0 → r.roll_no = "r"
            decide)
        (by decide)
        (RunOwned.nil _)))
    ⟨"r", 3, 1⟩ (by decide)

/-! ### Pointwise effect of the two SQL UPDATEs on the lookups -/

theorem get_student_updated (db : DB) (roll_no : String) (st : Student) (t a : Int)
    (R : List DailyRecord) (n : Nat)
    (hst : get_student db roll_no = some st) (hroll : st.roll_no = roll_no) :
    get_student ⟨sqlUpdateStudents db.students roll_no t a, R, n⟩ roll_no =
      some { st with total_classes := t, attended_classes := a } := by
  show (sqlUpdateStudents db.students roll_no t a).find? (fun s => s.roll_no == roll_no) = _
  rw [find?_sqlUpdateStudents]
  have h0 : db.students.find? (fun s => s.roll_no == roll_no) = some st := hst
  rw [h0]
  show some (stuOverwrite roll_no t a st) = _
  rw [stuOverwrite_of_eq _ _ _ _ hroll]

theorem get_student_updated_ne (db : DB) (roll_no q : String) (t a : Int)
    (R : List DailyRecord) (n : Nat) (hne : q ≠ roll_no) :
    get_student ⟨sqlUpdateStudents db.students roll_no t a, R, n⟩ q =
      get_student db q := by
  show (sqlUpdateStudents db.students roll_no t a).find? (fun s => s.roll_no == q) =
    db.students.find? (fun s => s.roll_no == q)
  rw [find?_sqlUpdateStudents]
  cases h : db.students.find? (fun s => s.roll_no == q) with
  | none => rfl
  | some s =>
    have hs : s.roll_no = q := by simpa using List.find?_some h
    show some (stuOverwrite roll_no t a s) = some s
    rw [stuOverwrite_of_ne _ _ _ _ (by rw [hs]; exact hne)]

theorem get_record_by_id_updated (db : DB) (record_id : Nat) (nt na : Int)
    (S : List Student) (n : Nat) (record : DailyRecord)
    (hrec : get_record_by_id db record_id = some record) :
    get_record_by_id ⟨S, sqlUpdateRecords db.records record_id nt na, n⟩ record_id =
      some { record with total_classes := nt, attended_classes := na } := by
  show (sqlUpdateRecords db.records record_id nt na).find? (fun r => r.id == record_id) = _
  rw [find?_id_sqlUpdateRecords]
  have h0 : db.records.find? (fun r => r.id == record_id) = some record := hrec
  rw [h0]
  show some (recOverwrite record_id nt na record) = _
  rw [recOverwrite_of_eq _ _ _ _ (get_record_mem_id db record_id record hrec).2]

theorem get_record_by_id_updated_ne (db : DB) (record_id j : Nat) (nt na : Int)
    (S : List Student) (n : Nat) (hne : j ≠ record_id) :
    get_record_by_id ⟨S, sqlUpdateRecords db.records record_id nt na, n⟩ j =
      get_record_by_id db j := by
  show (sqlUpdateRecords db.records record_id nt na).find? (fun r => r.id == j) =
    db.records.find? (fun r => r.id == j)
  rw [find?_id_sqlUpdateRecords]
  cases h : db.records.find? (fun r => r.id == j) with
  | none => rfl
  | some r =>
    have hr : r.id = j := by simpa using List.find?_some h
    show some (recOverwrite record_id nt na r) = some r
    rw [recOverwrite_of_ne _ _ _ _ (by rw [hr]; exact hne)]

theorem get_today_record_updated (db : DB) (roll_no today : String) (record_id : Nat)
    (nt na : Int) (S : List Student) (n : Nat) (existing : DailyRecord)
    (hex : get_today_record db roll_no today = some existing) :
    get_today_record ⟨S, sqlUpdateRecords db.records record_id nt na, n⟩ roll_no today =
      some (recOverwrite record_id nt na existing) := by
  show (sqlUpdateRecords db.records record_id nt na).find?
    (fun r => r.roll_no == roll_no && r.date == today) = _
  rw [find?_today_sqlUpdateRecords]
  have h0 : db.records.find? (fun r => r.roll_no == roll_no && r.date == today) =
      some existing := hex
  rw [h0]
  rfl

theorem mem_sqlUpdateRecords_of_ne (recs : List DailyRecord) (record_id : Nat)
    (nt na : Int) (r : DailyRecord) (hr : r ∈ recs) (hne : r.id ≠ record_id) :
    r ∈ sqlUpdateRecords recs record_id nt na := by
  unfold sqlUpdateRecords
  exact List.mem_map.mpr ⟨r, hr, recOverwrite_of_ne _ _ _ _ hne⟩

theorem mem_sqlUpdateStudents_of_ne (sts : List Student) (roll_no : String)
    (t a : Int) (s : Student) (hs : s ∈ sts) (hne : s.roll_no ≠ roll_no) :
    s ∈ sqlUpdateStudents sts roll_no t a := by
  unfold sqlUpdateStudents
  exact List.mem_map.mpr ⟨s, hs, stuOverwrite_of_ne _ _ _ _ hne⟩

/-! ### Decidability of the spec-side predicates (for concrete witnesses) -/

instance (db : DB) (s : Student) : Decidable (studentRowOK db s) := by
  unfold studentRowOK
  infer_instance

instance (db : DB) : Decidable (aggregateInvariant db) := by
  unfold aggregateInvariant
  exact List.decidableBAll _ _

instance (db : DB) (q : String) : Decidable (studentAggOK db q) := by
  unfold studentAggOK
  exact List.decidableBAll _ _

instance (db : DB) : Decidable (dbWF db) := by
  unfold dbWF
  infer_instance

/-- C5: on a well-formed database whose student exists, submitting the same
`(roll_no, date, total, attended)` twice in a row (with `attended ≤ total`)
leaves the student's `(total_classes, attended_classes)` exactly as after the
first call: the second call's delta is zero. -/
theorem claim_C5_resubmit_idempotent (db : DB) (today roll_no : String)
    (total attended : Int) (st : Student) (b1 b2 : Bool) (db1 db2 : DB)
    (hwf : dbWF db)
    (hst : get_student db roll_no = some st)
    (hvalid : attended ≤ total)
    (h1 : add_or_update_today db today roll_no total attended = some (b1, db1))
    (h2 : add_or_update_today db1 today roll_no total attended = some (b2, db2)) :
    (get_student db2 roll_no).map (fun s => (s.total_classes, s.attended_classes)) =
      (get_student db1 roll_no).map (fun s => (s.total_classes, s.attended_classes)) := by
  obtain ⟨hstmem, hstroll⟩ := get_student_mem_roll db roll_no st hst
  cases hex : get_today_record db roll_no today with
  | some existing =>
    obtain ⟨hexmem, hexroll, hexdate⟩ := get_today_mem db roll_no today existing hex
    rw [add_today_existing db today roll_no total attended existing hex] at h1
    cases hgr : get_record_by_id db existing.id with
    | none =>
      exact absurd (List.find?_eq_none.mp hgr existing hexmem) (by simp)
    | some record =>
      obtain rfl : record = existing :=
        (record_mem_eq_found db existing.id record existing hwf.2.1 hgr hexmem rfl).symm
      rw [update_record_some db record.id roll_no total attended record st hgr hst] at h1
      injection h1 with h1'
      injection h1' with hb1 hdb1
      subst hdb1
      have hget1 : get_today_record
          (⟨sqlUpdateStudents db.students roll_no
              (st.total_classes - record.total_classes + total)
              (st.attended_classes - record.attended_classes + attended),
            sqlUpdateRecords db.records record.id total attended, db.next_id⟩ : DB)
          roll_no today =
          some { record with total_classes := total, attended_classes := attended } := by
        rw [get_today_record_updated db roll_no today record.id total attended _ _ record hex]
        rw [recOverwrite_of_eq _ _ _ _ rfl]
      have hgr1 : get_record_by_id
          (⟨sqlUpdateStudents db.students roll_no
              (st.total_classes - record.total_classes + total)
              (st.attended_classes - record.attended_classes + attended),
            sqlUpdateRecords db.records record.id total attended, db.next_id⟩ : DB)
          record.id =
          some { record with total_classes := total, attended_classes := attended } :=
        get_record_by_id_updated db record.id total attended _ _ record hgr
      have hgs1 : get_student
          (⟨sqlUpdateStudents db.students roll_no
              (st.total_classes - record.total_classes + total)
              (st.attended_classes - record.attended_classes + attended),
            sqlUpdateRecords db.records record.id total attended, db.next_id⟩ : DB)
          roll_no =
          some { st with total_classes := st.total_classes - record.total_classes + total,
                         attended_classes := st.attended_classes - record.attended_classes + attended } :=
        get_student_updated db roll_no st _ _ _ _ hst hstroll
      rw [add_today_existing _ today roll_no total attended _ hget1] at h2
      rw [update_record_some _ _ roll_no total attended _ _ hgr1 hgs1] at h2
      injection h2 with h2'
      injection h2' with hb2 hdb2
      subst hdb2
      rw [get_student_updated _ roll_no _
            ((st.total_classes - record.total_classes + total) - total + total)
            ((st.attended_classes - record.attended_classes + attended) - attended + attended)
            _ _ hgs1 hstroll,
          hgs1]
      show some (((st.total_classes - record.total_classes + total) - total + total,
                  (st.attended_classes - record.attended_classes + attended)
                    - attended + attended) : Int × Int) =
        some ((st.total_classes - record.total_classes + total,
               st.attended_classes - record.attended_classes + attended) : Int × Int)
      rw [Option.some.injEq, Prod.mk.injEq]
      exact ⟨by ring, by ring⟩
  | none =>
    rw [add_today_insert db today roll_no total attended st hex hst] at h1
    injection h1 with h1'
    injection h1' with hb1 hdb1
    subst hdb1
    have hget1 : get_today_record
        (⟨sqlUpdateStudents db.students roll_no
            (st.total_classes + total) (st.attended_classes + attended),
          db.records ++
            [{ id := db.next_id, roll_no := roll_no, date := today,
               total_classes := total, attended_classes := attended }],
          db.next_id + 1⟩ : DB) roll_no today =
        some { id := db.next_id, roll_no := roll_no, date := today,
               total_classes := total, attended_classes := attended } := by
      show (db.records ++
          [({ id := db.next_id, roll_no := roll_no, date := today,
              total_classes := total, attended_classes := attended } : DailyRecord)]).find?
          (fun r => r.roll_no == roll_no && r.date == today) = _
      rw [List.find?_append]
      have h0 : db.records.find? (fun r => r.roll_no == roll_no && r.date == today) =
          none := hex
      rw [h0, List.find?_cons_of_pos _ (by simp)]
      rfl
    have hgr1 : get_record_by_id
        (⟨sqlUpdateStudents db.students roll_no
            (st.total_classes + total) (st.attended_classes + attended),
          db.records ++
            [{ id := db.next_id, roll_no := roll_no, date := today,
               total_classes := total, attended_classes := attended }],
          db.next_id + 1⟩ : DB) db.next_id =
        some { id := db.next_id, roll_no := roll_no, date := today,
               total_classes := total, attended_classes := attended } := by
      show (db.records ++
          [({ id := db.next_id, roll_no := roll_no, date := today,
              total_classes := total, attended_classes := attended } : DailyRecord)]).find?
          (fun r => r.id == db.next_id) = _
      rw [List.find?_append]
      have h0 : db.records.find? (fun r => r.id == db.next_id) = none := by
        rw [List.find?_eq_none]
        intro r hr
        simp only [beq_iff_eq]
        exact Nat.ne_of_lt (hwf.2.2 r hr)
      rw [h0, List.find?_cons_of_pos _ (by simp)]
      rfl
    have hgs1 : get_student
        (⟨sqlUpdateStudents db.students roll_no
            (st.total_classes + total) (st.attended_classes + attended),
          db.records ++
            [{ id := db.next_id, roll_no := roll_no, date := today,
               total_classes := total, attended_classes := attended }],
          db.next_id + 1⟩ : DB) roll_no =
        some { st with total_classes := st.total_classes + total,
                       attended_classes := st.attended_classes + attended } :=
      get_student_updated db roll_no st _ _ _ _ hst hstroll
    rw [add_today_existing _ today roll_no total attended _ hget1] at h2
    rw [update_record_some _ _ roll_no total attended _ _ hgr1 hgs1] at h2
    injection h2 with h2'
    injection h2' with hb2 hdb2
    subst hdb2
    rw [get_student_updated _ roll_no _
          ((st.total_classes + total) - total + total)
          ((st.attended_classes + attended) - attended + attended)
          _ _ hgs1 hstroll,
        hgs1]
    show some (((st.total_classes + total) - total + total,
                (st.attended_classes + attended) - attended + attended) : Int × Int) =
      some ((st.total_classes + total, st.attended_classes + attended) : Int × Int)
    rw [Option.some.injEq, Prod.mk.injEq]
    exact ⟨by ring, by ring⟩

/-- Witness for C5: submitting `(4,3)` twice for the same day leaves the
totals at `(4,3)`, the same as after one submission. -/
theorem claim_C5_resubmit_idempotent_witness :
    (get_student ⟨[⟨"r", 4, 3⟩], [⟨0, "r", "2025-01-01", 4, 3⟩], 1⟩ "r").map
        (fun s => (s.total_classes, s.attended_classes)) =
      (get_student ⟨[⟨"r", 4, 3⟩], [⟨0, "r", "2025-01-01", 4, 3⟩], 1⟩ "r").map
        (fun s => (s.total_classes, s.attended_classes)) :=
  claim_C5_resubmit_idempotent ⟨[⟨"r", 0, 0⟩], [], 0⟩ "2025-01-01" "r" 4 3 ⟨"r", 0, 0⟩
    true true
    ⟨[⟨"r", 4, 3⟩], [⟨0, "r", "2025-01-01", 4, 3⟩], 1⟩
    ⟨[⟨"r", 4, 3⟩], [⟨0, "r", "2025-01-01", 4, 3⟩], 1⟩
    (by decide) (by decide) (by decide) (by decide) (by decide)

/-- C8: `update_record` applies the aggregate delta to the student named by
its `roll_no` argument, not to the edited record's owner.  When the record
exists but its `roll_no` differs from the argument, and both students exist,
the record is still overwritten and the delta `(new − old)` is added to the
argument student's totals; for a nonzero delta, starting from the aggregate
invariant, the sum invariant is then broken for both students. -/
theorem claim_C8_delta_to_wrong_student (db : DB) (record_id : Nat) (roll_no : String)
    (nt na : Int) (record : DailyRecord) (st sto : Student)
    (hwf : dbWF db) (hinv : aggregateInvariant db)
    (hrec : get_record_by_id db record_id = some record)
    (hdiff : record.roll_no ≠ roll_no)
    (hst : get_student db roll_no = some st)
    (hsto : get_student db record.roll_no = some sto)
    (hne : nt ≠ record.total_classes ∨ na ≠ record.attended_classes) :
    ∃ db', update_record db record_id roll_no nt na = some (true, db') ∧
      get_record_by_id db' record_id =
        some { record with total_classes := nt, attended_classes := na } ∧
      get_student db' roll_no =
        some { st with
               total_classes := st.total_classes - record.total_classes + nt,
               attended_classes := st.attended_classes - record.attended_classes + na } ∧
      ¬ studentAggOK db' roll_no ∧
      ¬ studentAggOK db' record.roll_no := by
  obtain ⟨hstmem, hstroll⟩ := get_student_mem_roll db roll_no st hst
  obtain ⟨hstomem, hstoroll⟩ := get_student_mem_roll db record.roll_no sto hsto
  have hsumT := fun q => sumBy_sqlUpdateRecords db.records record_id nt na q
    (fun r => r.total_classes) nt record (fun r => rfl) hrec hwf.2.1
  have hsumA := fun q => sumBy_sqlUpdateRecords db.records record_id nt na q
    (fun r => r.attended_classes) na record (fun r => rfl) hrec hwf.2.1
  refine ⟨_, update_record_some db record_id roll_no nt na record st hrec hst,
    get_record_by_id_updated db record_id nt na _ _ record hrec,
    get_student_updated db roll_no st _ _ _ _ hst hstroll, ?_, ?_⟩
  · intro hOK
    have hmem' : ({ st with
        total_classes := st.total_classes - record.total_classes + nt,
        attended_classes := st.attended_classes - record.attended_classes + na } :
        Student) ∈ sqlUpdateStudents db.students roll_no
          (st.total_classes - record.total_classes + nt)
          (st.attended_classes - record.attended_classes + na) := by
      have h0 := List.mem_map_of_mem
        (stuOverwrite roll_no (st.total_classes - record.total_classes + nt)
          (st.attended_classes - record.attended_classes + na)) hstmem
      rw [stuOverwrite_of_eq _ _ _ _ hstroll] at h0
      exact h0
    have h := hOK _ hmem' hstroll
    have e1 : st.total_classes - record.total_classes + nt =
        sumBy (sqlUpdateRecords db.records record_id nt na) st.roll_no
          (fun r => r.total_classes) := h.1
    have e2 : st.attended_classes - record.attended_classes + na =
        sumBy (sqlUpdateRecords db.records record_id nt na) st.roll_no
          (fun r => r.attended_classes) := h.2
    have hcond : ¬ record.roll_no = st.roll_no := fun hc => hdiff (hc.trans hstroll)
    rw [hsumT st.roll_no, if_neg hcond] at e1
    rw [hsumA st.roll_no, if_neg hcond] at e2
    have i1 := (hinv st hstmem).1
    have i2 := (hinv st hstmem).2
    rcases hne with h' | h'
    · exact h' (by omega)
    · exact h' (by omega)
  · intro hOK
    have hmem' : sto ∈ sqlUpdateStudents db.students roll_no
        (st.total_classes - record.total_classes + nt)
        (st.attended_classes - record.attended_classes + na) :=
      mem_sqlUpdateStudents_of_ne db.students roll_no _ _ sto hstomem
        (by rw [hstoroll]; exact hdiff)
    have h := hOK sto hmem' hstoroll
    have e1 : sto.total_classes =
        sumBy (sqlUpdateRecords db.records record_id nt na) sto.roll_no
          (fun r => r.total_classes) := h.1
    have e2 : sto.attended_classes =
        sumBy (sqlUpdateRecords db.records record_id nt na) sto.roll_no
          (fun r => r.attended_classes) := h.2
    rw [hsumT sto.roll_no, if_pos hstoroll.symm] at e1
    rw [hsumA sto.roll_no, if_pos hstoroll.symm] at e2
    have i1 := (hinv sto hstomem).1
    have i2 := (hinv sto hstomem).2
    rcases hne with h' | h'
    · exact h' (by omega)
    · exact h' (by omega)

/-- Witness for C8: record 1 belongs to student "a", but the edit names
student "b"; "b" absorbs the delta and the invariant breaks for both. -/
theorem claim_C8_delta_to_wrong_student_witness :
    ∃ db', update_record
        ⟨[⟨"a", 10, 8⟩, ⟨"b", 0, 0⟩], [⟨1, "a", "2025-01-01", 10, 8⟩], 2⟩
        1 "b" 10 5 = some (true, db') ∧
      get_record_by_id db' 1 = some ⟨1, "a", "2025-01-01", 10, 5⟩ ∧
      get_student db' "b" = some ⟨"b", 0 - 10 + 10, 0 - 8 + 5⟩ ∧
      ¬ studentAggOK db' "b" ∧
      ¬ studentAggOK db' "a" :=
  claim_C8_delta_to_wrong_student
    ⟨[⟨"a", 10, 8⟩, ⟨"b", 0, 0⟩], [⟨1, "a", "2025-01-01", 10, 8⟩], 2⟩
    1 "b" 10 5 ⟨1, "a", "2025-01-01", 10, 8⟩ ⟨"b", 0, 0⟩ ⟨"a", 10, 8⟩
    (by decide) (by decide) (by decide) (by decide) (by decide) (by decide)
    (Or.inr (by decide))

/-- C9: the engine functions themselves enforce no attendance bound: with
the student present, for any `0 ≤ total < attended` a direct call to
`add_or_update_today` (and to `update_record` on any existing record)
returns `True` and persists a row with `attended_classes > total_classes`;
the `attended ≤ total` check exists only in the button handlers
(`save_today_button` / `save_changes_button`) before these are invoked. -/
theorem claim_C9_engine_no_bound_check (db : DB) (today roll_no : String)
    (total attended : Int) (st : Student)
    (hst : get_student db roll_no = some st)
    (h0 : 0 ≤ total) (hgt : total < attended) :
    (∃ db', add_or_update_today db today roll_no total attended = some (true, db') ∧
      ∃ r, get_today_record db' roll_no today = some r ∧
        r.total_classes = total ∧ r.attended_classes = attended ∧
        r.total_classes < r.attended_classes) ∧
    (∀ record_id record, get_record_by_id db record_id = some record →
      ∃ db', update_record db record_id roll_no total attended = some (true, db') ∧
        ∃ r, get_record_by_id db' record_id = some r ∧
          r.total_classes = total ∧ r.attended_classes = attended ∧
          r.total_classes < r.attended_classes) := by
  obtain ⟨hstmem, hstroll⟩ := get_student_mem_roll db roll_no st hst
  constructor
  · cases hex : get_today_record db roll_no today with
    | some existing =>
      obtain ⟨hexmem, hexroll, hexdate⟩ := get_today_mem db roll_no today existing hex
      cases hgr : get_record_by_id db existing.id with
      | none =>
        exact absurd (List.find?_eq_none.mp hgr existing hexmem) (by simp)
      | some record =>
        rw [add_today_existing db today roll_no total attended existing hex]
        refine ⟨_, update_record_some db existing.id roll_no total attended record st hgr hst,
          recOverwrite existing.id total attended existing,
          get_today_record_updated db roll_no today existing.id total attended _ _ existing hex,
          ?_, ?_, ?_⟩
        · rw [recOverwrite_of_eq _ _ _ _ rfl]
        · rw [recOverwrite_of_eq _ _ _ _ rfl]
        · rw [recOverwrite_of_eq _ _ _ _ rfl]
          exact hgt
    | none =>
      rw [add_today_insert db today roll_no total attended st hex hst]
      refine ⟨_, rfl,
        ⟨db.next_id, roll_no, today, total, attended⟩, ?_, rfl, rfl, hgt⟩
      show (db.records ++
          [({ id := db.next_id, roll_no := roll_no, date := today,
              total_classes := total, attended_classes := attended } : DailyRecord)]).find?
          (fun r => r.roll_no == roll_no && r.date == today) = _
      rw [List.find?_append]
      have hnone : db.records.find? (fun r => r.roll_no == roll_no && r.date == today) =
          none := hex
      rw [hnone, List.find?_cons_of_pos _ (by simp)]
      rfl
  · intro record_id record hgr
    exact ⟨_, update_record_some db record_id roll_no total attended record st hgr hst,
      { record with total_classes := total, attended_classes := attended },
      get_record_by_id_updated db record_id total attended _ _ record hgr, rfl, rfl, hgt⟩

/-- Witness for C9: the engine happily stores `total = 1, attended = 3`. -/
theorem claim_C9_engine_no_bound_check_witness :
    (∃ db', add_or_update_today ⟨[⟨"r", 2, 2⟩], [⟨0, "r", "2025-01-02", 2, 2⟩], 1⟩
        "2025-01-03" "r" 1 3 = some (true, db') ∧
      ∃ r, get_today_record db' "r" "2025-01-03" = some r ∧
        r.total_classes = 1 ∧ r.attended_classes = 3 ∧
        r.total_classes < r.attended_classes) ∧
    (∀ record_id record,
      get_record_by_id ⟨[⟨"r", 2, 2⟩], [⟨0, "r", "2025-01-02", 2, 2⟩], 1⟩ record_id =
          some record →
      ∃ db', update_record ⟨[⟨"r", 2, 2⟩], [⟨0, "r", "2025-01-02", 2, 2⟩], 1⟩
          record_id "r" 1 3 = some (true, db') ∧
        ∃ r, get_record_by_id db' record_id = some r ∧
          r.total_classes = 1 ∧ r.attended_classes = 3 ∧
          r.total_classes < r.attended_classes) :=
  claim_C9_engine_no_bound_check
    ⟨[⟨"r", 2, 2⟩], [⟨0, "r", "2025-01-02", 2, 2⟩], 1⟩
    "2025-01-03" "r" 1 3 ⟨"r", 2, 2⟩ (by decide) (by decide) (by decide)

/-- C10: frame property of `update_record`: with the record and the student
present, the call succeeds; the edited row keeps its `id`, `roll_no` and
`date` and changes only the two count columns; lookups of every other record
id and every other roll number are unchanged; rows not named by the
`WHERE` clauses survive verbatim; the id counter and the table size are
untouched. -/
theorem claim_C10_update_record_frame (db : DB) (record_id : Nat) (roll_no : String)
    (nt na : Int) (record : DailyRecord) (st : Student)
    (hrec : get_record_by_id db record_id = some record)
    (hst : get_student db roll_no = some st) :
    ∃ db', update_record db record_id roll_no nt na = some (true, db') ∧
      get_record_by_id db' record_id =
        some { record with total_classes := nt, attended_classes := na } ∧
      (∀ j, j ≠ record_id → get_record_by_id db' j = get_record_by_id db j) ∧
      (∀ r ∈ db.records, r.id ≠ record_id → r ∈ db'.records) ∧
      get_student db' roll_no =
        some { st with
               total_classes := st.total_classes - record.total_classes + nt,
               attended_classes := st.attended_classes - record.attended_classes + na } ∧
      (∀ q, q ≠ roll_no → get_student db' q = get_student db q) ∧
      (∀ s ∈ db.students, s.roll_no ≠ roll_no → s ∈ db'.students) ∧
      db'.next_id = db.next_id ∧
      db'.records.length = db.records.length := by
  obtain ⟨hstmem, hstroll⟩ := get_student_mem_roll db roll_no st hst
  refine ⟨_, update_record_some db record_id roll_no nt na record st hrec hst,
    get_record_by_id_updated db record_id nt na _ _ record hrec,
    ?_, ?_, get_student_updated db roll_no st _ _ _ _ hst hstroll, ?_, ?_, rfl, ?_⟩
  · intro j hj
    exact get_record_by_id_updated_ne db record_id j nt na _ _ hj
  · intro r hr hne
    exact mem_sqlUpdateRecords_of_ne db.records record_id nt na r hr hne
  · intro q hq
    exact get_student_updated_ne db roll_no q _ _ _ _ hq
  · intro s hs hne
    exact mem_sqlUpdateStudents_of_ne db.students roll_no _ _ s hs hne
  · show (sqlUpdateRecords db.records record_id nt na).length = db.records.length
    simp [sqlUpdateRecords]

/-- Witness for C10 on a two-student, two-record database. -/
theorem claim_C10_update_record_frame_witness :
    ∃ db', update_record
        ⟨[⟨"a", 10, 8⟩, ⟨"b", 7, 6⟩],
         [⟨1, "a", "2025-01-01", 10, 8⟩, ⟨2, "b", "2025-01-01", 7, 6⟩], 3⟩
        1 "a" 10 5 = some (true, db') ∧
      get_record_by_id db' 1 = some ⟨1, "a", "2025-01-01", 10, 5⟩ ∧
      (∀ j, j ≠ 1 → get_record_by_id db' j =
        get_record_by_id
          ⟨[⟨"a", 10, 8⟩, ⟨"b", 7, 6⟩],
           [⟨1, "a", "2025-01-01", 10, 8⟩, ⟨2, "b", "2025-01-01", 7, 6⟩], 3⟩ j) ∧
      (∀ r ∈ (⟨[⟨"a", 10, 8⟩, ⟨"b", 7, 6⟩],
           [⟨1, "a", "2025-01-01", 10, 8⟩, ⟨2, "b", "2025-01-01", 7, 6⟩], 3⟩ : DB).records,
        r.id ≠ 1 → r ∈ db'.records) ∧
      get_student db' "a" = some ⟨"a", 10 - 10 + 10, 8 - 8 + 5⟩ ∧
      (∀ q, q ≠ "a" → get_student db' q =
        get_student
          ⟨[⟨"a", 10, 8⟩, ⟨"b", 7, 6⟩],
           [⟨1, "a", "2025-01-01", 10, 8⟩, ⟨2, "b", "2025-01-01", 7, 6⟩], 3⟩ q) ∧
      (∀ s ∈ (⟨[⟨"a", 10, 8⟩, ⟨"b", 7, 6⟩],
           [⟨1, "a", "2025-01-01", 10, 8⟩, ⟨2, "b", "2025-01-01", 7, 6⟩], 3⟩ : DB).students,
        s.roll_no ≠ "a" → s ∈ db'.students) ∧
      db'.next_id = 3 ∧
      db'.records.length =
        (⟨[⟨"a", 10, 8⟩, ⟨"b", 7, 6⟩],
          [⟨1, "a", "2025-01-01", 10, 8⟩, ⟨2, "b", "2025-01-01", 7, 6⟩], 3⟩ : DB).records.length :=
  claim_C10_update_record_frame
    ⟨[⟨"a", 10, 8⟩, ⟨"b", 7, 6⟩],
     [⟨1, "a", "2025-01-01", 10, 8⟩, ⟨2, "b", "2025-01-01", 7, 6⟩], 3⟩
    1 "a" 10 5 ⟨1, "a", "2025-01-01", 10, 8⟩ ⟨"a", 10, 8⟩ (by decide) (by decide)

